import Mathlib

/-!
# Verification of the LexerSearchUI configuration codec and dispatch layer

This development is a shallow embedding of `src/io.rs` (and the build-time
public-URL construction of `build.rs`) of the LexerSearchUI repository.

Modelling conventions:
* Rust byte vectors (`Vec<u8>`) become `List Nat`, with the `< 256` range
  carried as an explicit hypothesis where it matters.
* Rust strings handled by the codec become `List Char`; opaque text payloads
  stored inside the configuration (subject, pattern strings, names) stay
  `String`.
* `BTreeMap<String, String>` becomes an association list
  `List (String × String)` (a `BTreeMap` iterates its entries in sorted key
  order; none of the verified properties depend on the ordering).
* External crates are collaborators.  The `base_x` big-number alphabet codec
  is deterministic and fully documented, so it is embedded executably and its
  round trip is proved.  `zstd` and `bincode` are represented by a record of
  abstract functions (`SerdeCodec`), and theorems that need their documented
  contracts take those contracts as explicit pointwise hypotheses; a concrete
  executable model of the `bincode` standard format for this schema
  (`bincodeEncodeModel` / `bincodeDecodeModel`) is also provided, which
  exhibits the interaction between the serde field-skipping attribute on
  `subject` and the non-self-describing binary format.  `serde_yml` is
  represented by the record `YamlCodec`.
-/

namespace LexerSearchUI

/-- `lexer_search_lib::io::Language`: the closed set of supported languages.
The variant list is fixed by the exhaustive `match` in
`PlaygroundConfig::monaco_language` (src/io.rs, lines 133-146). -/
inductive Language where
  | C | Cpp | CSharp | Go | Java | Js | Kotlin | Py | Rust | Ts
deriving DecidableEq, Repr

/-- `MatchingUnit` (src/io.rs, lines 53-60). -/
structure MatchingUnit where
  patterns : List String
  name : String
  group : String
  out : List (String × String)
  transform : List (String × String)
deriving DecidableEq, Repr

/-- `Playgroundlhs = Vec<MatchingUnit>` (src/io.rs, line 38). -/
abbrev Playgroundlhs := List MatchingUnit

/-- `PlaygroundConfig` (src/io.rs, lines 41-51): the session DTO.  The Rust
field `subject` carries the serde attribute
`#[serde(default, skip_serializing_if = "String::is_empty")]`, which is
reflected in the binary-serialization model `bincodeEncodeModel` below. -/
structure PlaygroundConfig where
  subject : String
  language : Language
  lhs : Playgroundlhs
deriving DecidableEq, Repr

/-- `impl Default for PlaygroundConfig` (src/io.rs, lines 62-79). -/
def defaultConfig : PlaygroundConfig where
  subject := "let x = \"hi\";\nprintln!(\"\x7bx\x7d\");"
  language := Language.Rust
  lhs := [{ patterns := ["&_VAR = $_STR;\n...\nprintln!($_FMT)"]
            name := "hello_world"
            group := ""
            out := []
            transform := [("_FMT", "^\\\x7b(?<_VAR>[^\x7d]+)\x7d$")] }]

/-- `ALPHABET` (src/io.rs, lines 14-15): the fixed URL-safe alphabet
(upper-case letters, lower-case letters, digits, and the punctuation
`- _ . ~ / : @ ! $ & \x27 ( ) * + , ; =`). -/
def ALPHABET : List Char :=
  "ABCDEFGHIJKLMNOPQRSTUVWXYZabcdefghijklmnopqrstuvwxyz0123456789-_.~/:@!$&\x27()*+,;=".toList

/-- The radix used by the `base_x` codec: the number of alphabet symbols. -/
def BASE : Nat := ALPHABET.length

/-! ## The `base_x` alphabet codec

`base_x::encode` / `base_x::decode` implement the classic base-58-style
big-number alphabet codec, generalised to an arbitrary alphabet: the input
byte string is split into its leading zero bytes and the remainder; the
remainder is read as a big-endian base-256 number, rewritten in base
`BASE`, and each digit is replaced by the corresponding alphabet symbol;
each leading zero byte becomes one copy of the first alphabet symbol.
Decoding inverts this and fails on any character outside the alphabet.

`toBaseAux` computes the little-endian digits of `n` in base `b` using
structural fuel (`n` itself bounds the number of digits), which keeps the
definition kernel-reducible; it is proved equal to `Nat.digits` below. -/

def toBaseAux (b : Nat) : Nat → Nat → List Nat
  | _, 0 => []
  | 0, _ + 1 => []
  | fuel + 1, n + 1 => ((n + 1) % b) :: toBaseAux b fuel ((n + 1) / b)

/-- Little-endian digits of `n` in base `b` (no zero digit at the top end;
`toBase b 0 = []`). -/
def toBase (b n : Nat) : List Nat := toBaseAux b n n

/-- Big-endian base-256 value of a byte string. -/
def bytesValue (data : List Nat) : Nat := Nat.ofDigits 256 data.reverse

/-- `encode_bytes` (src/io.rs, lines 17-19), i.e. `base_x::encode` applied
to `ALPHABET`. -/
def encode_bytes (data : List Nat) : List Char :=
  (List.replicate (data.takeWhile (fun x => x == 0)).length 0
      ++ (toBase BASE (bytesValue data)).reverse).map (fun d => ALPHABET.getD d ' ')

/-- Position of a character in the alphabet, scanning from index `i`. -/
def charIndexAux (c : Char) : List Char → Nat → Option Nat
  | [], _ => none
  | a :: as, i => if a = c then some i else charIndexAux c as (i + 1)

/-- Index of a character in `ALPHABET`, or `none` for a foreign character
(the `base_x::DecodeError` case). -/
def charIndex (c : Char) : Option Nat := charIndexAux c ALPHABET 0

/-- Alphabet indices of every character of the string, or `none` as soon as
one character is foreign. -/
def charIndices : List Char → Option (List Nat)
  | [] => some []
  | c :: cs =>
    match charIndex c, charIndices cs with
    | some i, some is => some (i :: is)
    | _, _ => none

/-- `decode_bytes` (src/io.rs, lines 21-23), i.e. `base_x::decode` applied
to `ALPHABET`: leading first-symbol characters become zero bytes and the
remaining big-endian base-`BASE` value is rewritten in base 256. -/
def decode_bytes (s : List Char) : Except Unit (List Nat) :=
  match charIndices s with
  | none => Except.error ()
  | some ds =>
    Except.ok (List.replicate (ds.takeWhile (fun x => x == 0)).length 0
      ++ (toBase 256 (Nat.ofDigits BASE ds.reverse)).reverse)

/-! ## The public URL prefix

`PUBLIC_URL` (src/io.rs, line 81) is baked at build time by `build.rs`
(lines 15-43): the `public_url` value of `Trunk.toml`, with one leading
slash stripped, followed by the two characters `#/`.  The concrete
`Trunk.toml` value is deployment configuration, so it stays a parameter
`raw`; every instance of `publicUrlValue` contains the character `#`,
which is not in `ALPHABET`. -/

def stripLeadingSlash : List Char → List Char
  | '/' :: rest => rest
  | l => l

/-- The content of the `target/lexer-search-ui-public-url` file written by
`build.rs` from the raw `Trunk.toml` value, as included into `PUBLIC_URL`. -/
def publicUrlValue (raw : List Char) : List Char :=
  stripLeadingSlash raw ++ ['#', '/']

/-! ## The URL codec -/

/-- Interface of the two external serialization collaborators used by the
URL codec: `bincode::serde::encode_to_vec` with the standard configuration
(total — the Rust code unwraps), `zstd::encode_all` at level 22 (total —
unwrapped as well), and their fallible inverses `zstd::decode_all` and
`bincode::serde::decode_from_slice` (which also reports the number of bytes
read). -/
structure SerdeCodec where
  bincodeEncode : PlaygroundConfig → List Nat
  zstdEncode : List Nat → List Nat
  zstdDecode : List Nat → Except Unit (List Nat)
  bincodeDecode : List Nat → Except Unit (PlaygroundConfig × Nat)

/-- `PlaygroundConfig::to_url_str` (src/io.rs, lines 84-89): binary-encode,
compress, then alphabet-encode. -/
def to_url_str (K : SerdeCodec) (c : PlaygroundConfig) : List Char :=
  encode_bytes (K.zstdEncode (K.bincodeEncode c))

/-- The prefix-stripping step of `from_url_str` (src/io.rs, lines 92-94). -/
def stripToken (publicURL s : List Char) : List Char :=
  if publicURL.isPrefixOf s then s.drop publicURL.length else s

/-- `PlaygroundConfig::from_url_str` (src/io.rs, lines 91-111): strip the
public-URL prefix when present, then run the three fallible decoding stages,
substituting the default configuration on any failure. -/
def from_url_str (K : SerdeCodec) (publicURL s : List Char) : PlaygroundConfig :=
  match decode_bytes (stripToken publicURL s) with
  | Except.error _ => defaultConfig
  | Except.ok compressed =>
    match K.zstdDecode compressed with
    | Except.error _ => defaultConfig
    | Except.ok decompressed =>
      match K.bincodeDecode decompressed with
      | Except.error _ => defaultConfig
      | Except.ok cfg => cfg.1

/-! ## The editor-parts translator -/

/-- `PlaygroundConfig::monaco_language` (src/io.rs, lines 133-146). -/
def monaco_language (l : Language) : String :=
  match l with
  | Language.C => "c"
  | Language.Cpp => "cpp"
  | Language.CSharp => "csharp"
  | Language.Go => "go"
  | Language.Java => "java"
  | Language.Js => "javascript"
  | Language.Kotlin => "kotlin"
  | Language.Py => "python"
  | Language.Rust => "rust"
  | Language.Ts => "typescript"

/-- Modelled from the spec: `serde_yml::from_str::<Language>` — the serde
implementation of `Language` lives in the external `lexer_search_lib` crate
and is not part of this repository.  Per the spec the display mapping is a
fixed, total, closed-set mapping with one entry per supported language, and
unrecognized tags are a parse error carrying a human-readable description
(the exact error text of the collaborator is not specified, so this model
uses a fixed descriptive message). -/
def languageFromStr (s : String) : Except String Language :=
  if s = "c" then Except.ok Language.C
  else if s = "cpp" then Except.ok Language.Cpp
  else if s = "csharp" then Except.ok Language.CSharp
  else if s = "go" then Except.ok Language.Go
  else if s = "java" then Except.ok Language.Java
  else if s = "javascript" then Except.ok Language.Js
  else if s = "kotlin" then Except.ok Language.Kotlin
  else if s = "python" then Except.ok Language.Py
  else if s = "rust" then Except.ok Language.Rust
  else if s = "typescript" then Except.ok Language.Ts
  else Except.error ("unknown language tag: " ++ s)

/-- Interface of the `serde_yml` collaborator as used for the rule list:
`serde_yml::to_string::<Playgroundlhs>` (total — the Rust code unwraps) and
`serde_yml::from_str::<Playgroundlhs>` with errors already mapped to strings
(`map_err(|e| e.to_string())`). -/
structure YamlCodec where
  yamlToString : Playgroundlhs → String
  yamlFromStr : String → Except String Playgroundlhs

/-- `PlaygroundConfig::from_editor_parts` (src/io.rs, lines 113-125): parse
the rule list, then the language tag, propagating the first error. -/
def from_editor_parts (Y : YamlCodec) (subject language editorLhs : String) :
    Except String PlaygroundConfig :=
  match Y.yamlFromStr editorLhs with
  | Except.error e => Except.error e
  | Except.ok lhs =>
    match languageFromStr language with
    | Except.error e => Except.error e
    | Except.ok lang =>
      Except.ok { subject := subject, language := lang, lhs := lhs }

/-- `PlaygroundConfig::to_editor_parts` (src/io.rs, lines 127-131), with
`editor_lhs` (lines 148-151) inlined: returns `(lhs, rhs, lang)`. -/
def to_editor_parts (Y : YamlCodec) (c : PlaygroundConfig) :
    String × String × String :=
  (Y.yamlToString c.lhs, c.subject, monaco_language c.language)

/-! ## The pattern compiler and executor -/

/-- `default_max_concurrent_matches` (src/io.rs, lines 26-28). -/
def default_max_concurrent_matches : Nat := 5000

/-- `default_max_token_length` (src/io.rs, lines 30-32); the Rust value is
`NonZeroUsize` 5000. -/
def default_max_token_length : Nat := 5000

/-- `default_group_cap` (src/io.rs, lines 34-36); the Rust value is
`NonZeroUsize` 10. -/
def default_group_cap : Nat := 10

/-- Value returned by the collaborator constructor `make_c_like_lexer`,
represented by its arguments: the bracket/brace-convention flag, the
pattern-metacharacter mode flag, and the token-length bound. -/
structure CLikeLexer where
  bracketConvention : Bool
  patternMode : Bool
  maxTokenLength : Nat
deriving DecidableEq, Repr

/-- Value returned by the collaborator constructor `make_python_like_lexer`,
represented by its arguments. -/
structure PythonLikeLexer where
  patternMode : Bool
  maxTokenLength : Nat
deriving DecidableEq, Repr

/-- Value returned by the collaborator constructor `make_rust_like_lexer`,
represented by its arguments. -/
structure RustLikeLexer where
  patternMode : Bool
  maxTokenLength : Nat
deriving DecidableEq, Repr

def make_c_like_lexer (bracketConvention patternMode : Bool)
    (maxTokenLength : Nat) : CLikeLexer :=
  { bracketConvention := bracketConvention, patternMode := patternMode,
    maxTokenLength := maxTokenLength }

def make_python_like_lexer (patternMode : Bool) (maxTokenLength : Nat) :
    PythonLikeLexer :=
  { patternMode := patternMode, maxTokenLength := maxTokenLength }

def make_rust_like_lexer (patternMode : Bool) (maxTokenLength : Nat) :
    RustLikeLexer :=
  { patternMode := patternMode, maxTokenLength := maxTokenLength }

/-- `lexer_search_lib::lexer::EnumLexer`: the tagged union of the lexer
families, as dispatched over in `PlaygroundConfig::run`. -/
inductive EnumLexer where
  | CLike : CLikeLexer → EnumLexer
  | PythonLike : PythonLikeLexer → EnumLexer
  | RustLike : RustLikeLexer → EnumLexer
deriving DecidableEq, Repr

/-- The lexer chosen by the pattern-compilation pass of
`PlaygroundConfig::run` (src/io.rs, lines 177-191): the `match` on
`self.language` inside the pattern loop. -/
def selectPatternLexer (l : Language) : EnumLexer :=
  match l with
  | Language.C | Language.Cpp | Language.CSharp | Language.Java =>
    EnumLexer.CLike (make_c_like_lexer false true default_max_token_length)
  | Language.Go | Language.Js | Language.Ts | Language.Kotlin =>
    EnumLexer.CLike (make_c_like_lexer true true default_max_token_length)
  | Language.Py =>
    EnumLexer.PythonLike (make_python_like_lexer true default_max_token_length)
  | Language.Rust =>
    EnumLexer.RustLike (make_rust_like_lexer true default_max_token_length)

/-- The lexer chosen by the subject-scanning pass of
`PlaygroundConfig::run` (src/io.rs, lines 213-226). -/
def selectSubjectLexer (l : Language) : EnumLexer :=
  match l with
  | Language.C | Language.Cpp | Language.CSharp | Language.Java =>
    EnumLexer.CLike (make_c_like_lexer false false default_max_token_length)
  | Language.Go | Language.Js | Language.Ts | Language.Kotlin =>
    EnumLexer.CLike (make_c_like_lexer true false default_max_token_length)
  | Language.Py =>
    EnumLexer.PythonLike (make_python_like_lexer false default_max_token_length)
  | Language.Rust =>
    EnumLexer.RustLike (make_rust_like_lexer false default_max_token_length)

/-- UTF-8 bytes of a string (`String::into_bytes` in Rust). -/
def strBytes (s : String) : List Nat :=
  s.data.flatMap (fun c => (String.utf8EncodeChar c).map (fun b => b.toNat))

/-- `convert_out` (src/io.rs, lines 154-164): turn the string-keyed map into
a byte-keyed, byte-valued map. -/
def convert_out (input : List (String × String)) : List (List Nat × List Nat) :=
  input.map (fun kv => (strBytes kv.1, strBytes kv.2))

/-- `convert_transform` (src/io.rs, lines 166-171): turn the string-keyed
map into a byte-keyed, string-valued map. -/
def convert_transform (input : List (String × String)) : List (List Nat × String) :=
  input.map (fun kv => (strBytes kv.1, kv.2))

/-- Line/column position inside `FullMatch`. -/
structure Position where
  line : Nat
  column : Nat
deriving DecidableEq, Repr

/-- `lexer_search_lib::engine::matcher::FullMatch`, as consumed by the sink
in src/main.rs (lines 200-227): start and end positions, the unit name, and
the named captures (`stop` models the Rust field `end`, a reserved word
here). -/
structure FullMatch where
  start : Position
  stop : Position
  name : String
  captures : List (List Nat × List Nat)
deriving DecidableEq, Repr

/-- Arguments of one `trie.add_pattern` call (src/io.rs, lines 193-201):
the pattern text (the Rust code wraps it in a `Cursor` reader), the
converted maps, the unit name and group, the selected lexer, and the
token-length bound. -/
structure PatternRegistration where
  pattern : String
  out : List (List Nat × List Nat)
  name : String
  group : String
  transform : List (List Nat × String)
  lexer : EnumLexer
  maxTokenLength : Nat

/-- The three resource bounds handed to `Matcher::new`
(src/io.rs, lines 205-210). -/
structure MatcherBounds where
  maxConcurrentMatches : Nat
  maxTokenLength : Nat
  groupCap : Nat
deriving DecidableEq, Repr

/-- Interface of the trie/matcher collaborator
(`lexer_search_lib::engine`): `Trie::default`, `Trie::add_pattern`, and the
matcher construction plus `process_and_drain` combined into one operation
that returns the sequence of matches delivered to the sink (the Rust sink is
invoked once per element, in order; an error means the sink was fed exactly
the returned prefix — for the registration phase it is never invoked at
all). -/
structure Engine (Trie : Type) where
  defaultTrie : Trie
  addPattern : Trie → PatternRegistration → Except String Trie
  processAndDrain : Trie → MatcherBounds → String → EnumLexer →
    Except String (List FullMatch)

/-- The registration loop of `PlaygroundConfig::run` (src/io.rs, lines
173-203): for each unit, for each pattern, register it with the
pattern-compilation lexer; the `?` operator aborts on the first error. -/
def buildTrie {T : Type} (E : Engine T) (cfg : PlaygroundConfig) :
    Except String T :=
  cfg.lhs.foldlM (fun trie unit =>
    unit.patterns.foldlM (fun trie pattern =>
      E.addPattern trie
        { pattern := pattern
          out := convert_out unit.out
          name := unit.name
          group := unit.group
          transform := convert_transform unit.transform
          lexer := selectPatternLexer cfg.language
          maxTokenLength := default_max_token_length }) trie) E.defaultTrie

/-- `PlaygroundConfig::run` (src/io.rs, lines 153-231): build the trie, then
construct the matcher with the three bounds and drain the subject through
the subject-scanning lexer.  The returned list is the sequence of sink
invocations. -/
def run {T : Type} (E : Engine T) (cfg : PlaygroundConfig) :
    Except String (List FullMatch) :=
  match buildTrie E cfg with
  | Except.error e => Except.error e
  | Except.ok trie =>
    E.processAndDrain trie
      { maxConcurrentMatches := default_max_concurrent_matches
        maxTokenLength := default_max_token_length
        groupCap := default_group_cap }
      cfg.subject (selectSubjectLexer cfg.language)

/-! ## An executable model of the `bincode` standard format

`bincode::config::standard()` is little-endian with variable-width integer
encoding: an unsigned integer below 251 is one byte; otherwise a marker byte
251/252/253/254 is followed by the little-endian 2-, 4-, 8- or 16-byte
value.  A string is its byte length (varint) followed by its UTF-8 bytes; a
sequence or map is its element count (varint) followed by the elements in
order; an enum is its variant index as a varint.  Struct fields are written
in declaration order with no framing.

The serde derive on `PlaygroundConfig` carries
`#[serde(default, skip_serializing_if = "String::is_empty")]` on `subject`:
serialization skips the field entirely when the subject is empty (serde
`skip_field` writes nothing in bincode), while the derived deserializer,
driven by bincode as a fixed-arity field sequence, still reads all three
fields in order — the `default` fallback only applies when the sequence
ends early, which bincode never reports mid-struct. -/

def leBytes (k n : Nat) : List Nat :=
  (List.range k).map (fun i => n / 256 ^ i % 256)

def varintEncode (n : Nat) : List Nat :=
  if n < 251 then [n]
  else if n < 2 ^ 16 then 251 :: leBytes 2 n
  else if n < 2 ^ 32 then 252 :: leBytes 4 n
  else if n < 2 ^ 64 then 253 :: leBytes 8 n
  else 254 :: leBytes 16 n

def readBytes (k : Nat) (bs : List Nat) : Option (List Nat × List Nat) :=
  if k ≤ bs.length then some (bs.take k, bs.drop k) else none

def varintDecode : List Nat → Option (Nat × List Nat)
  | [] => none
  | b :: rest =>
    if b < 251 then some (b, rest)
    else if b = 251 then (readBytes 2 rest).map (fun p => (Nat.ofDigits 256 p.1, p.2))
    else if b = 252 then (readBytes 4 rest).map (fun p => (Nat.ofDigits 256 p.1, p.2))
    else if b = 253 then (readBytes 8 rest).map (fun p => (Nat.ofDigits 256 p.1, p.2))
    else (readBytes 16 rest).map (fun p => (Nat.ofDigits 256 p.1, p.2))

def isUtf8Cont (b : Nat) : Bool := 128 ≤ b && b < 192

/-- UTF-8 decoding of a byte list (models `str::from_utf8` as used by
bincode when reading a string): rejects truncated sequences, stray or
overlong encodings, surrogate code points, and values above the Unicode
range. -/
def utf8Decode : List Nat → Option (List Char)
  | [] => some []
  | b0 :: rest =>
    if b0 < 128 then
      (utf8Decode rest).map (fun cs => Char.ofNat b0 :: cs)
    else if b0 < 192 then none
    else if b0 < 224 then
      match rest with
      | b1 :: rest2 =>
        if isUtf8Cont b1 then
          let cp := (b0 - 192) * 64 + (b1 - 128)
          if 128 ≤ cp then (utf8Decode rest2).map (fun cs => Char.ofNat cp :: cs)
          else none
        else none
      | [] => none
    else if b0 < 240 then
      match rest with
      | b1 :: b2 :: rest3 =>
        if isUtf8Cont b1 && isUtf8Cont b2 then
          let cp := (b0 - 224) * 4096 + (b1 - 128) * 64 + (b2 - 128)
          if 2048 ≤ cp && !(55296 ≤ cp && cp ≤ 57343) then
            (utf8Decode rest3).map (fun cs => Char.ofNat cp :: cs)
          else none
        else none
      | _ => none
    else if b0 < 248 then
      match rest with
      | b1 :: b2 :: b3 :: rest4 =>
        if isUtf8Cont b1 && isUtf8Cont b2 && isUtf8Cont b3 then
          let cp := (b0 - 240) * 262144 + (b1 - 128) * 4096
            + (b2 - 128) * 64 + (b3 - 128)
          if 65536 ≤ cp && cp < 1114112 then
            (utf8Decode rest4).map (fun cs => Char.ofNat cp :: cs)
          else none
        else none
      | _ => none
    else none

def encodeString (s : String) : List Nat :=
  varintEncode (strBytes s).length ++ strBytes s

def decodeString (bs : List Nat) : Option (String × List Nat) :=
  match varintDecode bs with
  | none => none
  | some (len, rest) =>
    match readBytes len rest with
    | none => none
    | some (sb, rest2) =>
      match utf8Decode sb with
      | none => none
      | some cs => some (String.mk cs, rest2)

/-- Variant index of `Language` in declaration order (its serde/bincode
discriminant). -/
def langIndex (l : Language) : Nat :=
  match l with
  | Language.C => 0
  | Language.Cpp => 1
  | Language.CSharp => 2
  | Language.Go => 3
  | Language.Java => 4
  | Language.Js => 5
  | Language.Kotlin => 6
  | Language.Py => 7
  | Language.Rust => 8
  | Language.Ts => 9

def langOfIndex (i : Nat) : Option Language :=
  match i with
  | 0 => some Language.C
  | 1 => some Language.Cpp
  | 2 => some Language.CSharp
  | 3 => some Language.Go
  | 4 => some Language.Java
  | 5 => some Language.Js
  | 6 => some Language.Kotlin
  | 7 => some Language.Py
  | 8 => some Language.Rust
  | 9 => some Language.Ts
  | _ => none

def encodePair (kv : String × String) : List Nat :=
  encodeString kv.1 ++ encodeString kv.2

def decodePair (bs : List Nat) : Option ((String × String) × List Nat) :=
  match decodeString bs with
  | none => none
  | some (k, r1) =>
    match decodeString r1 with
    | none => none
    | some (v, r2) => some ((k, v), r2)

def encodeSeq {α : Type} (enc : α → List Nat) (l : List α) : List Nat :=
  varintEncode l.length ++ l.flatMap enc

def decodeSeqAux {α : Type} (dec : List Nat → Option (α × List Nat)) :
    Nat → List Nat → Option (List α × List Nat)
  | 0, bs => some ([], bs)
  | k + 1, bs =>
    match dec bs with
    | none => none
    | some (a, rest) =>
      match decodeSeqAux dec k rest with
      | none => none
      | some (as, rest2) => some (a :: as, rest2)

def decodeSeq {α : Type} (dec : List Nat → Option (α × List Nat))
    (bs : List Nat) : Option (List α × List Nat) :=
  match varintDecode bs with
  | none => none
  | some (len, rest) => decodeSeqAux dec len rest

def encodeUnit (u : MatchingUnit) : List Nat :=
  encodeSeq encodeString u.patterns ++ encodeString u.name
    ++ encodeString u.group ++ encodeSeq encodePair u.out
    ++ encodeSeq encodePair u.transform

def decodeUnit (bs : List Nat) : Option (MatchingUnit × List Nat) :=
  match decodeSeq decodeString bs with
  | none => none
  | some (patterns, r1) =>
    match decodeString r1 with
    | none => none
    | some (name, r2) =>
      match decodeString r2 with
      | none => none
      | some (group, r3) =>
        match decodeSeq decodePair r3 with
        | none => none
        | some (out, r4) =>
          match decodeSeq decodePair r4 with
          | none => none
          | some (transform, r5) =>
            some ({ patterns := patterns, name := name, group := group,
                    out := out, transform := transform }, r5)

/-- `bincode::serde::encode_to_vec` on `PlaygroundConfig` with the standard
configuration: the `skip_serializing_if` attribute omits the subject field
entirely when it is empty; the other two fields follow in order. -/
def bincodeEncodeModel (c : PlaygroundConfig) : List Nat :=
  (if c.subject = "" then [] else encodeString c.subject)
    ++ varintEncode (langIndex c.language) ++ encodeSeq encodeUnit c.lhs

/-- `bincode::serde::decode_from_slice` on `PlaygroundConfig` with the
standard configuration: reads the three fields unconditionally in
declaration order (bincode is not self-describing, so the deserializer
cannot tell that a field was skipped) and reports the number of bytes
consumed. -/
def bincodeDecodeModel (bs : List Nat) : Except Unit (PlaygroundConfig × Nat) :=
  match decodeString bs with
  | none => Except.error ()
  | some (subject, r1) =>
    match varintDecode r1 with
    | none => Except.error ()
    | some (li, r2) =>
      match langOfIndex li with
      | none => Except.error ()
      | some lang =>
        match decodeSeq decodeUnit r2 with
        | none => Except.error ()
        | some (lhs, r3) =>
          Except.ok ({ subject := subject, language := lang, lhs := lhs },
            bs.length - r3.length)

/-! ## Concrete collaborator instances

These executable instances are used to evaluate the theorems below at
concrete inputs. -/

/-- The modelled collaborators of the URL codec: the `bincode` model above,
with the compression stage instantiated by an identity pair (any pair
satisfying the `zstd` round-trip contract serves; identity makes the
`bincode` stage directly observable). -/
def modelSerde : SerdeCodec where
  bincodeEncode := bincodeEncodeModel
  bincodeDecode := bincodeDecodeModel
  zstdEncode := fun b => b
  zstdDecode := fun b => Except.ok b

/-- A minimal serialization collaborator satisfying the documented
round-trip contracts at `defaultConfig`. -/
def sampleSerde : SerdeCodec where
  bincodeEncode := fun _ => [1, 2]
  zstdEncode := fun b => b
  zstdDecode := fun b => Except.ok b
  bincodeDecode := fun b =>
    if b = [1, 2] then Except.ok (defaultConfig, 2) else Except.error ()

/-- A serialization collaborator whose decompression stage always fails. -/
def zstdFailSerde : SerdeCodec where
  bincodeEncode := fun _ => [1, 2]
  zstdEncode := fun b => b
  zstdDecode := fun _ => Except.error ()
  bincodeDecode := fun _ => Except.error ()

/-- A minimal YAML collaborator satisfying the lossless round-trip contract
at `defaultConfig.lhs`. -/
def sampleYaml : YamlCodec where
  yamlToString := fun _ => "lhs"
  yamlFromStr := fun s =>
    if s = "lhs" then Except.ok defaultConfig.lhs else Except.error ("invalid type")

/-- An engine whose pattern registration always fails. -/
def failingEngine : Engine Unit where
  defaultTrie := ()
  addPattern := fun _ _ => Except.error ("invalid pattern")
  processAndDrain := fun _ _ _ _ => Except.ok []

/-- A sample raw `Trunk.toml` public-URL value, for concrete instances. -/
def rawPublicUrl : List Char := "LexerSearchUI/".toList

/-! ## Facts about the alphabet -/

theorem ALPHABET_length : ALPHABET.length = 80 := by decide

theorem ALPHABET_nodup : ALPHABET.Nodup := by decide

theorem two_le_BASE : 2 ≤ BASE := by decide

theorem hash_not_mem_ALPHABET : '#' ∉ ALPHABET := by decide

/-! ## Round trip of the alphabet codec -/

theorem toBaseAux_eq_digits (b : Nat) (hb : 2 ≤ b) :
    ∀ fuel n, n ≤ fuel → toBaseAux b fuel n = Nat.digits b n := by
  intro fuel
  induction fuel with
  | zero =>
    intro n hn
    interval_cases n
    simp [toBaseAux]
  | succ fuel ih =>
    intro n hn
    cases n with
    | zero => simp [toBaseAux]
    | succ m =>
      rw [toBaseAux, Nat.digits_def' (by omega : 1 < b) (Nat.succ_pos m)]
      congr 1
      exact ih _ (by
        have h2 : (m + 1) / b ≤ (m + 1) / 2 := Nat.div_le_div_left hb (by omega)
        have h3 : (m + 1) / 2 ≤ m := by omega
        omega)

theorem toBase_eq_digits (b n : Nat) (hb : 2 ≤ b) :
    toBase b n = Nat.digits b n :=
  toBaseAux_eq_digits b hb n n le_rfl

theorem charIndex_getD : ∀ d, d < BASE → charIndex (ALPHABET.getD d ' ') = some d := by
  decide

theorem charIndices_map_getD (ds : List Nat) (h : ∀ d ∈ ds, d < BASE) :
    charIndices (ds.map (fun d => ALPHABET.getD d ' ')) = some ds := by
  induction ds with
  | nil => rfl
  | cons d ds ih =>
    have hd : charIndex (ALPHABET.getD d ' ') = some d :=
      charIndex_getD d (h d (List.mem_cons_self d ds))
    have hds := ih (fun x hx => h x (List.mem_cons_of_mem d hx))
    simp only [List.map_cons, charIndices]
    rw [hd, hds]

theorem takeWhile_replicate_zero_append (z : Nat) (l : List Nat) :
    (List.replicate z 0 ++ l).takeWhile (fun x => x == 0) =
      List.replicate z 0 ++ l.takeWhile (fun x => x == 0) := by
  induction z with
  | zero => simp
  | succ z ih => simp [List.replicate_succ, List.takeWhile_cons, ih]

theorem ofDigits_replicate_zero (b z : Nat) :
    Nat.ofDigits b (List.replicate z 0) = 0 := by
  induction z with
  | zero => rfl
  | succ z ih => simp [List.replicate_succ, Nat.ofDigits_cons, ih]

theorem takeWhile_dropWhile_nil {α : Type} (p : α → Bool) (l : List α) :
    (l.dropWhile p).takeWhile p = [] := by
  induction l with
  | nil => rfl
  | cons a l ih =>
    by_cases h : p a
    · simpa [List.dropWhile_cons, h] using ih
    · simp [List.dropWhile_cons, h, List.takeWhile_cons, h]

/-- Core of the codec round trip, for byte strings already decomposed into
their leading zeros and a remainder with no leading zero. -/
theorem decode_encode_core (z : Nat) (r : List Nat)
    (hr256 : ∀ x ∈ r, x < 256)
    (htwr : r.takeWhile (fun x => x == 0) = []) :
    decode_bytes (encode_bytes (List.replicate z 0 ++ r)) =
      Except.ok (List.replicate z 0 ++ r) := by
  have hB2 : (2 : Nat) ≤ BASE := two_le_BASE
  have hB1 : (1 : Nat) < BASE := hB2
  have htw_in : (List.replicate z (0 : Nat) ++ r).takeWhile (fun x => x == 0) =
      List.replicate z 0 := by
    rw [takeWhile_replicate_zero_append, htwr, List.append_nil]
  have hval : bytesValue (List.replicate z 0 ++ r) = Nat.ofDigits 256 r.reverse := by
    rw [bytesValue, List.reverse_append, List.reverse_replicate,
      Nat.ofDigits_append, ofDigits_replicate_zero, Nat.mul_zero, Nat.add_zero]
  cases r with
  | nil =>
    have hmap : charIndices ((List.replicate z (0 : Nat)
        ++ (toBase BASE 0).reverse).map (fun d => ALPHABET.getD d ' '))
        = some (List.replicate z 0 ++ (toBase BASE 0).reverse) := by
      refine charIndices_map_getD _ (fun d hd => ?_)
      rcases List.mem_append.mp hd with h | h
      · have := List.eq_of_mem_replicate h
        omega
      · simp [toBase, toBaseAux] at h
    rw [encode_bytes, htw_in, List.length_replicate, hval,
      show Nat.ofDigits 256 ([] : List Nat).reverse = 0 from rfl,
      decode_bytes, hmap]
    show Except.ok _ = _
    rw [show (toBase BASE 0).reverse = ([] : List Nat) from rfl, List.append_nil,
      show (List.replicate z (0 : Nat)).takeWhile (fun x => x == 0)
        = List.replicate z 0 from by
          have h := takeWhile_replicate_zero_append z []
          rwa [List.append_nil, List.takeWhile_nil, List.append_nil] at h,
      List.length_replicate, List.reverse_replicate, ofDigits_replicate_zero,
      show toBase 256 0 = ([] : List Nat) from rfl]
    simp
  | cons rh rt =>
    have hrh0 : rh ≠ 0 := by
      intro h
      rw [h] at htwr
      rw [List.takeWhile_cons_of_pos (by decide)] at htwr
      cases htwr
    have hn0 : Nat.ofDigits 256 (rh :: rt).reverse ≠ 0 := by
      intro h0
      exact hrh0 (Nat.digits_zero_of_eq_zero (by norm_num) h0 rh (by simp))
    have hlast : ∀ h : (rh :: rt).reverse ≠ [],
        ((rh :: rt).reverse).getLast h ≠ 0 := by
      intro h
      rw [List.getLast_reverse]
      simpa using hrh0
    have hdig256 : Nat.digits 256 (Nat.ofDigits 256 (rh :: rt).reverse) =
        (rh :: rt).reverse :=
      Nat.digits_ofDigits 256 (by norm_num) _
        (fun x hx => hr256 x (List.mem_reverse.mp hx)) hlast
    have hbase_ne : Nat.digits BASE (Nat.ofDigits 256 (rh :: rt).reverse) ≠ [] :=
      Nat.digits_ne_nil_iff_ne_zero.mpr hn0
    have hbase_lt : ∀ d ∈ (toBase BASE
        (Nat.ofDigits 256 (rh :: rt).reverse)).reverse, d < BASE := by
      intro d hd
      rw [toBase_eq_digits _ _ hB2] at hd
      exact Nat.digits_lt_base hB1 (List.mem_reverse.mp hd)
    have htw_digits : ((toBase BASE
        (Nat.ofDigits 256 (rh :: rt).reverse)).reverse).takeWhile
        (fun x => x == 0) = [] := by
      rw [toBase_eq_digits _ _ hB2]
      have hh : (Nat.digits BASE (Nat.ofDigits 256 (rh :: rt).reverse)).reverse.head?
          = (Nat.digits BASE (Nat.ofDigits 256 (rh :: rt).reverse)).getLast? :=
        List.head?_reverse _
      cases hbe : (Nat.digits BASE (Nat.ofDigits 256 (rh :: rt).reverse)).reverse with
      | nil => rfl
      | cons bh bt =>
        rw [hbe, List.head?_cons,
          List.getLast?_eq_getLast _ hbase_ne] at hh
        have hbh : bh ≠ 0 := by
          rw [Option.some.injEq] at hh
          rw [hh]
          exact Nat.getLast_digit_ne_zero BASE hn0
        rw [List.takeWhile_cons_of_neg (by simpa using hbh)]
    have hmap : charIndices ((List.replicate z (0 : Nat)
        ++ (toBase BASE (Nat.ofDigits 256 (rh :: rt).reverse)).reverse).map
          (fun d => ALPHABET.getD d ' '))
        = some (List.replicate z 0
            ++ (toBase BASE (Nat.ofDigits 256 (rh :: rt).reverse)).reverse) := by
      refine charIndices_map_getD _ (fun d hd => ?_)
      rcases List.mem_append.mp hd with h | h
      · have := List.eq_of_mem_replicate h
        omega
      · exact hbase_lt d h
    rw [encode_bytes, htw_in, hval, List.length_replicate, decode_bytes, hmap]
    show Except.ok _ = _
    rw [takeWhile_replicate_zero_append, htw_digits, List.append_nil,
      List.length_replicate]
    rw [List.reverse_append, List.reverse_replicate, List.reverse_reverse]
    rw [toBase_eq_digits _ _ hB2, Nat.ofDigits_append, ofDigits_replicate_zero,
      Nat.mul_zero, Nat.add_zero, Nat.ofDigits_digits]
    rw [toBase_eq_digits _ _ (by norm_num), hdig256, List.reverse_reverse]

/-- The `base_x` codec inverts: decoding an encoded byte string recovers it
exactly, for genuine bytes (each value below 256). -/
theorem decode_encode_bytes (data : List Nat) (hdata : ∀ x ∈ data, x < 256) :
    decode_bytes (encode_bytes data) = Except.ok data := by
  have htw : data.takeWhile (fun x => x == 0)
      = List.replicate (data.takeWhile (fun x => x == 0)).length 0 :=
    List.eq_replicate_of_mem (fun x hx => by
      simpa using List.mem_takeWhile_imp hx)
  have hsplit : List.replicate (data.takeWhile (fun x => x == 0)).length 0
      ++ data.dropWhile (fun x => x == 0) = data := by
    rw [← htw, List.takeWhile_append_dropWhile]
  have hcore := decode_encode_core (data.takeWhile (fun x => x == 0)).length
    (data.dropWhile (fun x => x == 0))
    (fun x hx => hdata x ((List.dropWhile_sublist (fun x => x == 0)).subset hx))
    (takeWhile_dropWhile_nil _ data)
  rw [hsplit] at hcore
  exact hcore

/-! ## Tokens, the alphabet, and the public-URL prefix -/

theorem encode_bytes_mem_alphabet (data : List Nat) :
    ∀ ch ∈ encode_bytes data, ch ∈ ALPHABET := by
  intro ch hch
  rw [encode_bytes, List.mem_map] at hch
  obtain ⟨d, hd, rfl⟩ := hch
  have hlen : ALPHABET.length = 80 := ALPHABET_length
  have hdlt : d < ALPHABET.length := by
    rcases List.mem_append.mp hd with h | h
    · have := List.eq_of_mem_replicate h
      omega
    · have : d < BASE := by
        rw [toBase_eq_digits _ _ two_le_BASE] at h
        exact Nat.digits_lt_base two_le_BASE (List.mem_reverse.mp h)
      exact this
  rw [List.getD_eq_getElem?_getD, List.getElem?_eq_getElem hdlt]
  exact List.getElem_mem hdlt

theorem publicUrl_has_hash (raw : List Char) : '#' ∈ publicUrlValue raw :=
  List.mem_append.mpr (Or.inr (by decide))

/-- A string over the alphabet never begins with the public-URL prefix,
because the prefix contains the character `#`. -/
theorem not_isPrefixOf_token (raw t : List Char)
    (ht : ∀ ch ∈ t, ch ∈ ALPHABET) :
    (publicUrlValue raw).isPrefixOf t = false := by
  cases hb : (publicUrlValue raw).isPrefixOf t with
  | false => rfl
  | true =>
    have hpre : publicUrlValue raw <+: t := List.isPrefixOf_iff_prefix.mp hb
    exact absurd (ht _ (hpre.subset (publicUrl_has_hash raw)))
      hash_not_mem_ALPHABET

theorem stripToken_of_token (raw t : List Char)
    (ht : ∀ ch ∈ t, ch ∈ ALPHABET) :
    stripToken (publicUrlValue raw) t = t := by
  rw [stripToken, not_isPrefixOf_token raw t ht]
  rfl

theorem stripToken_append (pu t : List Char) : stripToken pu (pu ++ t) = t := by
  rw [stripToken,
    show pu.isPrefixOf (pu ++ t) = true from
      List.isPrefixOf_iff_prefix.mpr (List.prefix_append pu t)]
  show (pu ++ t).drop pu.length = t
  exact List.drop_left pu t

/-- Shared decoding argument: whenever the two abstract serialization
collaborators honour their round-trip contracts at `c`, decoding the bare
token recovers `c`. -/
theorem from_url_to_url (K : SerdeCodec) (raw : List Char)
    (c : PlaygroundConfig) (n : Nat)
    (hbytes : ∀ x ∈ K.zstdEncode (K.bincodeEncode c), x < 256)
    (hzstd : K.zstdDecode (K.zstdEncode (K.bincodeEncode c)) =
      Except.ok (K.bincodeEncode c))
    (hbin : K.bincodeDecode (K.bincodeEncode c) = Except.ok (c, n)) :
    from_url_str K (publicUrlValue raw) (to_url_str K c) = c := by
  rw [from_url_str, to_url_str,
    stripToken_of_token raw _ (encode_bytes_mem_alphabet _),
    decode_encode_bytes _ hbytes]
  show (match K.zstdDecode (K.zstdEncode (K.bincodeEncode c)) with
    | Except.error _ => defaultConfig
    | Except.ok decompressed =>
      match K.bincodeDecode decompressed with
      | Except.error _ => defaultConfig
      | Except.ok cfg => cfg.1) = c
  rw [hzstd]
  show (match K.bincodeDecode (K.bincodeEncode c) with
    | Except.error _ => defaultConfig
    | Except.ok cfg => cfg.1) = c
  rw [hbin]

/-! ## The claims -/

set_option maxRecDepth 10000

/-- Claim C1 (code bug): the round-trip law `from_url_str (to_url_str c) = c`
fails at the empty-subject configuration.  Encoding skips the empty
`subject` field (its serde `skip_serializing_if` attribute), but the
non-self-describing binary format then misreads the stream on decode — the
language discriminant byte is consumed as a string length — so the decode
stage fails and `from_url_str` substitutes the default configuration, which
differs from the input.  The theorem evaluates the codec, with the
compression stage instantiated by an identity pair and the binary stage by
the executable `bincode` standard-format model, at the failing input
`{ subject := "", language := Rust, lhs := [] }`. -/
theorem roundtrip_fails_on_empty_subject :
    from_url_str modelSerde (publicUrlValue rawPublicUrl)
        (to_url_str modelSerde
          { subject := "", language := Language.Rust, lhs := [] })
      = defaultConfig
    ∧ defaultConfig ≠ { subject := "", language := Language.Rust, lhs := [] } :=
  ⟨rfl, by decide⟩

/-- Sanity check for the binary model behind C1: on a configuration with a
non-empty subject the modelled encode/decode pair round-trips exactly,
through the whole URL codec as well — so the failure above is specific to
the skipped field, not an artifact of the model. -/
theorem bincodeModel_roundtrips_default :
    bincodeDecodeModel (bincodeEncodeModel defaultConfig) =
      Except.ok (defaultConfig, (bincodeEncodeModel defaultConfig).length)
    ∧ from_url_str modelSerde (publicUrlValue rawPublicUrl)
        (to_url_str modelSerde defaultConfig) = defaultConfig :=
  ⟨rfl, rfl⟩

/-- Claim C2: `from_url_str` is total, and whenever any of its three
decoding stages fails — a foreign character in the alphabet decoding, a
decompression failure, or a binary-deserialization failure — the result is
exactly the built-in default configuration. -/
theorem from_url_str_graceful_degradation (K : SerdeCodec) (pu s : List Char) :
    (∀ e, decode_bytes (stripToken pu s) = Except.error e →
      from_url_str K pu s = defaultConfig)
    ∧ (∀ v e, decode_bytes (stripToken pu s) = Except.ok v →
        K.zstdDecode v = Except.error e →
        from_url_str K pu s = defaultConfig)
    ∧ (∀ v d e, decode_bytes (stripToken pu s) = Except.ok v →
        K.zstdDecode v = Except.ok d →
        K.bincodeDecode d = Except.error e →
        from_url_str K pu s = defaultConfig) := by
  refine ⟨fun e he => ?_, fun v e hv he => ?_, fun v d e hv hd he => ?_⟩
  · simp [from_url_str, he]
  · simp [from_url_str, hv, he]
  · simp [from_url_str, hv, hd, he]

/-- Witness for C2: concrete failures at every stage — a token with the
foreign character `#`, a collaborator whose decompression always fails, and
a decoded byte string the binary stage rejects — all collapse to the
default configuration. -/
theorem from_url_str_graceful_degradation_witness :
    decode_bytes (stripToken (publicUrlValue rawPublicUrl) ['#'])
        = Except.error ()
    ∧ from_url_str sampleSerde (publicUrlValue rawPublicUrl) ['#']
        = defaultConfig
    ∧ from_url_str zstdFailSerde (publicUrlValue rawPublicUrl) ['B']
        = defaultConfig
    ∧ from_url_str sampleSerde (publicUrlValue rawPublicUrl) ['B']
        = defaultConfig :=
  ⟨rfl,
   (from_url_str_graceful_degradation sampleSerde
      (publicUrlValue rawPublicUrl) ['#']).1 () rfl,
   (from_url_str_graceful_degradation zstdFailSerde
      (publicUrlValue rawPublicUrl) ['B']).2.1 [1] () rfl rfl,
   (from_url_str_graceful_degradation sampleSerde
      (publicUrlValue rawPublicUrl) ['B']).2.2 [1] [1] () rfl rfl rfl⟩

/-- Counterexample to claim C3 as stated: with the executable binary model,
decoding the prefixed token of the empty-subject configuration does not
yield that configuration back (both the prefixed and the bare decode yield
the default configuration instead, for the reason recorded at C1). -/
theorem prefix_tolerance_counterexample :
    ¬ from_url_str modelSerde (publicUrlValue rawPublicUrl)
        (publicUrlValue rawPublicUrl ++ to_url_str modelSerde
          { subject := "", language := Language.Rust, lhs := [] })
      = { subject := "", language := Language.Rust, lhs := [] } := by
  intro h
  exact absurd (h.symm.trans (rfl :
    from_url_str modelSerde (publicUrlValue rawPublicUrl)
        (publicUrlValue rawPublicUrl ++ to_url_str modelSerde
          { subject := "", language := Language.Rust, lhs := [] })
      = defaultConfig)) (by decide)

/-- Claim C3 (amended): decoding a token with the public-URL prefix
prepended always gives the same result as decoding the bare token; and both
equal `c` for every configuration on which the serialization collaborators
honour their round-trip contracts (under the actual serializer this
excludes empty-subject configurations, per the counterexample). -/
theorem prefix_tolerance_amended (K : SerdeCodec) (raw : List Char)
    (c : PlaygroundConfig) (n : Nat)
    (hbytes : ∀ x ∈ K.zstdEncode (K.bincodeEncode c), x < 256)
    (hzstd : K.zstdDecode (K.zstdEncode (K.bincodeEncode c)) =
      Except.ok (K.bincodeEncode c))
    (hbin : K.bincodeDecode (K.bincodeEncode c) = Except.ok (c, n)) :
    from_url_str K (publicUrlValue raw)
        (publicUrlValue raw ++ to_url_str K c)
      = from_url_str K (publicUrlValue raw) (to_url_str K c)
    ∧ from_url_str K (publicUrlValue raw) (to_url_str K c) = c := by
  refine ⟨?_, from_url_to_url K raw c n hbytes hzstd hbin⟩
  rw [from_url_str, from_url_str, stripToken_append,
    stripToken_of_token raw (to_url_str K c)
      (encode_bytes_mem_alphabet (K.zstdEncode (K.bincodeEncode c)))]

/-- Witness for C3: the amended prefix-tolerance law evaluated at the
default configuration with a collaborator honouring the contracts there. -/
theorem prefix_tolerance_amended_witness :
    (∀ x ∈ sampleSerde.zstdEncode (sampleSerde.bincodeEncode defaultConfig),
      x < 256)
    ∧ sampleSerde.zstdDecode
        (sampleSerde.zstdEncode (sampleSerde.bincodeEncode defaultConfig))
      = Except.ok (sampleSerde.bincodeEncode defaultConfig)
    ∧ sampleSerde.bincodeDecode (sampleSerde.bincodeEncode defaultConfig)
      = Except.ok (defaultConfig, 2)
    ∧ from_url_str sampleSerde (publicUrlValue rawPublicUrl)
        (publicUrlValue rawPublicUrl ++ to_url_str sampleSerde defaultConfig)
      = from_url_str sampleSerde (publicUrlValue rawPublicUrl)
          (to_url_str sampleSerde defaultConfig)
    ∧ from_url_str sampleSerde (publicUrlValue rawPublicUrl)
        (to_url_str sampleSerde defaultConfig) = defaultConfig :=
  ⟨by decide, rfl, rfl,
   (prefix_tolerance_amended sampleSerde rawPublicUrl defaultConfig 2
      (by decide) rfl rfl).1,
   (prefix_tolerance_amended sampleSerde rawPublicUrl defaultConfig 2
      (by decide) rfl rfl).2⟩

/-- Claim C4: splitting a configuration into its editor parts and
reassembling them reproduces it, whenever the YAML collaborator honours its
lossless round-trip contract on the rule list (spec: the structured text
format round-trips the Matching Unit schema losslessly); the display
language name parses back to the same internal tag. -/
theorem editor_parts_roundtrip (Y : YamlCodec) (c : PlaygroundConfig)
    (hyaml : Y.yamlFromStr (Y.yamlToString c.lhs) = Except.ok c.lhs) :
    from_editor_parts Y (to_editor_parts Y c).2.1 (to_editor_parts Y c).2.2
        (to_editor_parts Y c).1
      = Except.ok c := by
  have hlang : languageFromStr (monaco_language c.language) =
      Except.ok c.language := by
    cases c.language <;> rfl
  simp [to_editor_parts, from_editor_parts, hyaml, hlang]

/-- Witness for C4: the editor round trip evaluated at the default
configuration with a YAML collaborator honouring the contract there. -/
theorem editor_parts_roundtrip_witness :
    sampleYaml.yamlFromStr (sampleYaml.yamlToString defaultConfig.lhs)
      = Except.ok defaultConfig.lhs
    ∧ from_editor_parts sampleYaml
        (to_editor_parts sampleYaml defaultConfig).2.1
        (to_editor_parts sampleYaml defaultConfig).2.2
        (to_editor_parts sampleYaml defaultConfig).1
      = Except.ok defaultConfig :=
  ⟨rfl, editor_parts_roundtrip sampleYaml defaultConfig rfl⟩

/-- Claim C5: both lexing passes of `run` select exactly one lexer for
every value of the closed language enumeration: C, C++, C# and Java take
the C-like lexer with the bracket-convention flag off; Go, JavaScript,
TypeScript and Kotlin take it with the flag on; Python takes the
Python-like lexer and Rust the Rust-like lexer.  The pattern-compilation
pass always passes the pattern-metacharacter mode flag as `true`, the
subject-scanning pass always as `false`. -/
theorem run_lexer_selection :
    (selectPatternLexer Language.C
      = EnumLexer.CLike (make_c_like_lexer false true default_max_token_length))
    ∧ (selectPatternLexer Language.Cpp
      = EnumLexer.CLike (make_c_like_lexer false true default_max_token_length))
    ∧ (selectPatternLexer Language.CSharp
      = EnumLexer.CLike (make_c_like_lexer false true default_max_token_length))
    ∧ (selectPatternLexer Language.Java
      = EnumLexer.CLike (make_c_like_lexer false true default_max_token_length))
    ∧ (selectPatternLexer Language.Go
      = EnumLexer.CLike (make_c_like_lexer true true default_max_token_length))
    ∧ (selectPatternLexer Language.Js
      = EnumLexer.CLike (make_c_like_lexer true true default_max_token_length))
    ∧ (selectPatternLexer Language.Ts
      = EnumLexer.CLike (make_c_like_lexer true true default_max_token_length))
    ∧ (selectPatternLexer Language.Kotlin
      = EnumLexer.CLike (make_c_like_lexer true true default_max_token_length))
    ∧ (selectPatternLexer Language.Py
      = EnumLexer.PythonLike
          (make_python_like_lexer true default_max_token_length))
    ∧ (selectPatternLexer Language.Rust
      = EnumLexer.RustLike (make_rust_like_lexer true default_max_token_length))
    ∧ (selectSubjectLexer Language.C
      = EnumLexer.CLike (make_c_like_lexer false false default_max_token_length))
    ∧ (selectSubjectLexer Language.Cpp
      = EnumLexer.CLike (make_c_like_lexer false false default_max_token_length))
    ∧ (selectSubjectLexer Language.CSharp
      = EnumLexer.CLike (make_c_like_lexer false false default_max_token_length))
    ∧ (selectSubjectLexer Language.Java
      = EnumLexer.CLike (make_c_like_lexer false false default_max_token_length))
    ∧ (selectSubjectLexer Language.Go
      = EnumLexer.CLike (make_c_like_lexer true false default_max_token_length))
    ∧ (selectSubjectLexer Language.Js
      = EnumLexer.CLike (make_c_like_lexer true false default_max_token_length))
    ∧ (selectSubjectLexer Language.Ts
      = EnumLexer.CLike (make_c_like_lexer true false default_max_token_length))
    ∧ (selectSubjectLexer Language.Kotlin
      = EnumLexer.CLike (make_c_like_lexer true false default_max_token_length))
    ∧ (selectSubjectLexer Language.Py
      = EnumLexer.PythonLike
          (make_python_like_lexer false default_max_token_length))
    ∧ (selectSubjectLexer Language.Rust
      = EnumLexer.RustLike
          (make_rust_like_lexer false default_max_token_length)) := by
  decide

/-- Claim C6: when registering some pattern fails (the registration loop of
`run`, `buildTrie`, returns an error), `run` surfaces exactly that error
string and the sink is never invoked — no match list is ever produced. -/
theorem run_aborts_on_pattern_error {T : Type} (E : Engine T)
    (cfg : PlaygroundConfig) (e : String)
    (h : buildTrie E cfg = Except.error e) :
    run E cfg = Except.error e ∧ ∀ ms, run E cfg ≠ Except.ok ms := by
  have hrun : run E cfg = Except.error e := by
    rw [run, h]
  exact ⟨hrun, fun ms hok => by rw [hrun] at hok; cases hok⟩

/-- Witness for C6: an engine whose registration always fails makes `run`
fail on the default configuration with that error and no matches. -/
theorem run_aborts_on_pattern_error_witness :
    buildTrie failingEngine defaultConfig = Except.error ("invalid pattern")
    ∧ run failingEngine defaultConfig = Except.error ("invalid pattern") :=
  ⟨rfl,
   (run_aborts_on_pattern_error failingEngine defaultConfig
      ("invalid pattern") rfl).1⟩

/-- Counterexample to claim C7 as stated: the fixed alphabet of the token
codec has 80 symbols, not 85. -/
theorem alphabet_not_85_symbols : ALPHABET.length = 80 ∧ ALPHABET.length ≠ 85 :=
  ⟨ALPHABET_length, by decide⟩

/-- Claim C7 (amended): the token produced by `to_url_str` is, for every
Session Config and any serialization collaborator, a string over the fixed
80-symbol URL-fragment-safe alphabet `ALPHABET` of letters, digits, and the
defined URL-safe punctuation. -/
theorem token_over_fixed_alphabet (K : SerdeCodec) (c : PlaygroundConfig) :
    (to_url_str K c).all (fun ch => decide (ch ∈ ALPHABET)) = true := by
  rw [List.all_eq_true]
  intro ch hch
  simpa using
    encode_bytes_mem_alphabet (K.zstdEncode (K.bincodeEncode c)) ch hch

/-- Claim C8: `from_editor_parts` is fail-visible: it returns the rule-list
parse error when the rule list does not parse, the language parse error
when the rule list parses but the tag does not, and succeeds exactly when
both parses succeed — it never substitutes a default. -/
theorem from_editor_parts_fail_visible (Y : YamlCodec)
    (subject language editorLhs : String) :
    (∀ e, Y.yamlFromStr editorLhs = Except.error e →
      from_editor_parts Y subject language editorLhs = Except.error e)
    ∧ (∀ l e, Y.yamlFromStr editorLhs = Except.ok l →
        languageFromStr language = Except.error e →
        from_editor_parts Y subject language editorLhs = Except.error e)
    ∧ (∀ l lang, Y.yamlFromStr editorLhs = Except.ok l →
        languageFromStr language = Except.ok lang →
        from_editor_parts Y subject language editorLhs =
          Except.ok { subject := subject, language := lang, lhs := l }) := by
  refine ⟨fun e he => ?_, fun l e hl he => ?_, fun l lang hl hlang => ?_⟩
  · simp [from_editor_parts, he]
  · simp [from_editor_parts, hl, he]
  · simp [from_editor_parts, hl, hlang]

/-- Witness for C8: a failing rule list surfaces the parse error, an
unrecognized language tag surfaces its error, and a double success builds
the configuration verbatim. -/
theorem from_editor_parts_fail_visible_witness :
    from_editor_parts sampleYaml ("s") ("rust") ("bad")
      = Except.error ("invalid type")
    ∧ from_editor_parts sampleYaml ("s") ("zzz") ("lhs")
      = Except.error ("unknown language tag: zzz")
    ∧ from_editor_parts sampleYaml ("s") ("rust") ("lhs")
      = Except.ok
          { subject := "s", language := Language.Rust, lhs := defaultConfig.lhs } :=
  ⟨(from_editor_parts_fail_visible sampleYaml ("s") ("rust") ("bad")).1
      ("invalid type") rfl,
   (from_editor_parts_fail_visible sampleYaml ("s") ("zzz") ("lhs")).2.1
      defaultConfig.lhs ("unknown language tag: zzz") rfl rfl,
   (from_editor_parts_fail_visible sampleYaml ("s") ("rust") ("lhs")).2.2
      defaultConfig.lhs Language.Rust rfl rfl⟩

/-- Claim C9: the built-in default configuration is a runnable example: a
non-empty subject, exactly one matching unit, exactly one pattern in that
unit, and one (hence at least one) entry in its transform map. -/
theorem default_config_is_runnable_example :
    defaultConfig.subject ≠ ""
    ∧ defaultConfig.lhs.map (fun u => u.patterns.length) = [1]
    ∧ defaultConfig.lhs.map (fun u => u.transform.length) = [1] := by
  refine ⟨by decide, rfl, rfl⟩

/-- Claim C10: `from_editor_parts` never inspects the subject text: for any
two subjects and fixed language and rule-list inputs, either both calls
fail with the same error, or both succeed with the respective subject
stored verbatim and identical language and rule-list fields. -/
theorem from_editor_parts_ignores_subject (Y : YamlCodec)
    (s1 s2 language editorLhs : String) :
    (∃ e, from_editor_parts Y s1 language editorLhs = Except.error e
        ∧ from_editor_parts Y s2 language editorLhs = Except.error e)
    ∨ (∃ lang l,
        from_editor_parts Y s1 language editorLhs
          = Except.ok { subject := s1, language := lang, lhs := l }
        ∧ from_editor_parts Y s2 language editorLhs
          = Except.ok { subject := s2, language := lang, lhs := l }) := by
  rcases hy : Y.yamlFromStr editorLhs with e | l
  · exact Or.inl ⟨e, by simp [from_editor_parts, hy],
      by simp [from_editor_parts, hy]⟩
  · rcases hl : languageFromStr language with e | lang
    · exact Or.inl ⟨e, by simp [from_editor_parts, hy, hl],
        by simp [from_editor_parts, hy, hl]⟩
    · exact Or.inr ⟨lang, l, by simp [from_editor_parts, hy, hl],
        by simp [from_editor_parts, hy, hl]⟩

end LexerSearchUI
